import Mathlib

/-!
Verification development for the conversation-aware chat engine of
proxycast (`src-tauri/src/agent/native_agent.rs` and
`src-tauri/src/agent/types.rs`).

Embedding conventions:
* Timestamps (`chrono::Utc::now().to_rfc3339()` strings in the source) are
  modelled as `Nat` values of an abstract clock; each operation that reads
  the clock takes the reading as an explicit `now` parameter.
* The `HashMap<String, AgentSession>` behind the `RwLock` is modelled as an
  association list with unique keys; `get_mut`-style updates are modelled by
  mapping over all entries with the matching key, which coincides with the
  hash-map behaviour on unique-key stores.
* Network I/O is modelled by passing the transport outcome (response status,
  body, and the sequence of chunk read results) as an explicit argument; the
  UTF-8 lossy decoding of each received byte chunk is abstracted by taking
  the chunks as already-decoded strings.
-/

/-! ## Data model (`types.rs`) -/

/-- `ImageUrl` from `types.rs`: url plus optional detail. -/
structure ImageUrl where
  url : String
  detail : Option String
deriving DecidableEq

/-- `FunctionCall` from `types.rs`. -/
structure FunctionCall where
  name : String
  arguments : String
deriving DecidableEq

/-- `ToolCall` from `types.rs`. -/
structure ToolCall where
  id : String
  call_type : String
  function : FunctionCall
deriving DecidableEq

/-- `ContentPart` from `types.rs`: text or image-url part. -/
inductive ContentPart where
  | Text (text : String)
  | ImageUrl (image_url : ImageUrl)
deriving DecidableEq

/-- `MessageContent` from `types.rs`: plain text or a list of parts. -/
inductive MessageContent where
  | Text (s : String)
  | Parts (parts : List ContentPart)
deriving DecidableEq

/-- `MessageContent::as_text` from `types.rs`: identity on `Text`; on
`Parts`, the newline-joined concatenation of the text parts, other parts
ignored. -/
def MessageContent.as_text : MessageContent → String
  | .Text s => s
  | .Parts parts =>
      String.intercalate "\n" (parts.filterMap fun p =>
        match p with
        | ContentPart.Text t => some t
        | ContentPart.ImageUrl _ => none)

/-- `AgentMessage` from `types.rs`; the timestamp is an abstract clock
reading. -/
structure AgentMessage where
  role : String
  content : MessageContent
  timestamp : Nat
  tool_calls : Option (List ToolCall)
  tool_call_id : Option String
deriving DecidableEq

/-- `AgentSession` from `types.rs`; `created_at` / `updated_at` are abstract
clock readings. -/
structure AgentSession where
  id : String
  model : String
  messages : List AgentMessage
  system_prompt : Option String
  created_at : Nat
  updated_at : Nat
deriving DecidableEq

/-- `ImageData` from `types.rs`: base64 data plus MIME type. -/
structure ImageData where
  data : String
  media_type : String
deriving DecidableEq

/-- `AgentConfig` from `types.rs`, restricted to the fields the embedded
operations read (`model`, `system_prompt`); `temperature`, `max_tokens` and
`tools` are only copied into the outbound wire request, which the embedding
abstracts away. -/
structure AgentConfig where
  model : String
  system_prompt : Option String
deriving DecidableEq

/-- `NativeChatRequest` from `types.rs`. -/
structure NativeChatRequest where
  session_id : Option String
  message : String
  model : Option String
  images : Option (List ImageData)
  stream : Bool
deriving DecidableEq

/-- `TokenUsage` from `types.rs`. -/
structure TokenUsage where
  input_tokens : Nat
  output_tokens : Nat
deriving DecidableEq

/-- `NativeChatResponse` from `types.rs`. -/
structure NativeChatResponse where
  content : String
  model : String
  usage : Option TokenUsage
  success : Bool
  error : Option String
deriving DecidableEq

/-- `StreamEvent` from `types.rs`: the events delivered on the output
channel. -/
inductive StreamEvent where
  | TextDelta (text : String)
  | Done (usage : Option TokenUsage)
  | Error (message : String)
deriving DecidableEq

/-- A `Done` or `Error` event is terminal; `TextDelta` is not. -/
def StreamEvent.isTerminal : StreamEvent → Bool
  | .TextDelta _ => false
  | .Done _ => true
  | .Error _ => true

/-! ## Session store (`native_agent.rs`, `sessions` map) -/

/-- The shared session map, as an association list with unique keys. -/
abbrev Store := List (String × AgentSession)

/-- Lookup, as `sessions.read().get(sid).cloned()`. -/
def Store.get? (store : Store) (sid : String) : Option AgentSession :=
  (store.find? (fun e => e.1 == sid)).map (·.2)

/-- Update the entry with the given key in place, leaving other entries
unchanged; no entry is created when the key is absent (mirrors
`sessions.get_mut(id)` followed by a mutation). -/
def Store.modify (store : Store) (sid : String) (f : AgentSession → AgentSession) : Store :=
  store.map (fun e => if e.1 == sid then (e.1, f e.2) else e)

/-- The `data:<media_type>;base64,<data>` URL built by
`format!("data:\x7b\x7d;base64,\x7b\x7d", img.media_type, img.data)`. -/
def dataUrl (img : ImageData) : String :=
  "data:" ++ img.media_type ++ ";base64," ++ img.data

/-- The `final_content` computed inside `add_message_to_session`: when
images are supplied, content becomes `Parts` with a leading text part and
one image-url part per image; otherwise the content is kept as is. -/
def finalContent (content : MessageContent) (images : Option (List ImageData)) : MessageContent :=
  match images with
  | some imgs =>
      MessageContent.Parts (ContentPart.Text content.as_text ::
        imgs.map fun img => ContentPart.ImageUrl { url := dataUrl img, detail := none })
  | none => content

/-- The message record pushed by `add_message_to_session`. -/
def pushedMessage (role : String) (content : MessageContent)
    (images : Option (List ImageData)) (now : Nat) : AgentMessage :=
  { role := role, content := finalContent content images, timestamp := now,
    tool_calls := none, tool_call_id := none }

/-- `NativeAgent::add_message_to_session`: on a present id, push one message
(converting content to `Parts` when images are supplied) and set
`updated_at` to the current clock; on an absent id, do nothing. -/
def add_message_to_session (store : Store) (session_id : String) (role : String)
    (content : MessageContent) (images : Option (List ImageData)) (now : Nat) : Store :=
  Store.modify store session_id fun session =>
    { session with
      messages := session.messages ++ [pushedMessage role content images now],
      updated_at := now }

/-- `NativeAgent::create_session`; the fresh UUID is taken as a parameter. -/
def create_session (store : Store) (cfg : AgentConfig) (sid : String)
    (model : Option String) (system_prompt : Option String) (now : Nat) : Store :=
  (sid, { id := sid, model := model.getD cfg.model, messages := [],
          system_prompt := system_prompt, created_at := now, updated_at := now }) :: store

/-- `NativeAgent::delete_session`: remove the entry, reporting whether it was
present. -/
def delete_session (store : Store) (sid : String) : Bool × Store :=
  ((store.find? (fun e => e.1 == sid)).isSome,
   store.filter (fun e => !(e.1 == sid)))

/-- `NativeAgent::clear_session_messages`: on a present id, clear the message
list, refresh `updated_at` and return true; otherwise return false. -/
def clear_session_messages (store : Store) (sid : String) (now : Nat) : Bool × Store :=
  if (store.find? (fun e => e.1 == sid)).isSome then
    (true, Store.modify store sid fun session =>
      { session with messages := [], updated_at := now })
  else
    (false, store)

/-- `NativeAgent::get_session_messages`. -/
def get_session_messages (store : Store) (sid : String) : Option (List AgentMessage) :=
  (Store.get? store sid).map (·.messages)

/-! ## Wire-protocol message types

Modelled from the spec: the declarations of `crate::models::openai` are not
part of the provided source tree; the record shapes below follow spec
section 6 (request body `messages:[\x7brole, content, tool_calls?,
tool_call_id?\x7d]`, non-streaming response
`\x7bchoices:[\x7bmessage:\x7bcontent\x7d\x7d], model, usage\x7d`) and their
construction / consumption sites in `native_agent.rs`. -/

/-- Modelled from the spec: `crate::models::openai::ImageUrl`, as constructed
in `native_agent.rs` (url plus optional detail). -/
structure WireImageUrl where
  url : String
  detail : Option String
deriving DecidableEq

/-- Modelled from the spec: `crate::models::openai::ContentPart`. -/
inductive WireContentPart where
  | Text (text : String)
  | ImageUrl (image_url : WireImageUrl)
deriving DecidableEq

/-- Modelled from the spec: `crate::models::openai::MessageContent`. -/
inductive WireMessageContent where
  | Text (s : String)
  | Parts (parts : List WireContentPart)
deriving DecidableEq

/-- Modelled from the spec: `crate::models::openai::FunctionCall`. -/
structure WireFunctionCall where
  name : String
  arguments : String
deriving DecidableEq

/-- Modelled from the spec: `crate::models::openai::ToolCall`. -/
structure WireToolCall where
  id : String
  call_type : String
  function : WireFunctionCall
deriving DecidableEq

/-- Modelled from the spec: `crate::models::openai::ChatMessage`, one element
of the wire request's `messages` array. -/
structure ChatMessage where
  role : String
  content : Option WireMessageContent
  tool_calls : Option (List WireToolCall)
  tool_call_id : Option String
deriving DecidableEq

/-- Modelled from the spec: the `message` object of one choice of the
non-streaming response (`\x7bmessage:\x7bcontent\x7d\x7d`); `content` is
optional, as `native_agent.rs` reads it with `and_then`. -/
structure RespChoiceMessage where
  content : Option String
deriving DecidableEq

/-- Modelled from the spec: one element of the non-streaming response's
`choices` array. -/
structure RespChoice where
  message : RespChoiceMessage
deriving DecidableEq

/-- Modelled from the spec: the response `usage` object. -/
structure RespUsage where
  prompt_tokens : Nat
  completion_tokens : Nat
deriving DecidableEq

/-- Modelled from the spec: `crate::models::openai::ChatCompletionResponse`,
with the fields `native_agent.rs` reads. -/
structure ChatCompletionResponse where
  choices : List RespChoice
  model : String
  usage : RespUsage
deriving DecidableEq

/-! ## Message assembly (`native_agent.rs`) -/

/-- `NativeAgent::convert_to_chat_message`: transcode one history message to
a wire message, preserving role, content variant and tool-call fields. -/
def convert_to_chat_message (msg : AgentMessage) : ChatMessage :=
  let content : Option WireMessageContent :=
    match msg.content with
    | .Text text => some (WireMessageContent.Text text)
    | .Parts parts =>
        some (WireMessageContent.Parts (parts.map fun p =>
          match p with
          | ContentPart.Text text => WireContentPart.Text text
          | ContentPart.ImageUrl image_url =>
              WireContentPart.ImageUrl { url := image_url.url, detail := image_url.detail }))
  { role := msg.role,
    content := content,
    tool_calls := msg.tool_calls.map (fun calls => calls.map fun tc =>
      { id := tc.id, call_type := tc.call_type,
        function := { name := tc.function.name, arguments := tc.function.arguments } }),
    tool_call_id := msg.tool_call_id }

/-- The new user message built at step 3 of
`NativeAgent::build_messages_with_history` (shared verbatim with
`build_single_messages`): plain text without images, otherwise a text part
followed by one image-url part per image. -/
def newUserMessage (user_message : String) (images : Option (List ImageData)) : ChatMessage :=
  match images with
  | some imgs =>
      { role := "user",
        content := some (WireMessageContent.Parts
          (WireContentPart.Text user_message ::
            imgs.map fun img =>
              WireContentPart.ImageUrl { url := dataUrl img, detail := none })),
        tool_calls := none,
        tool_call_id := none }
  | none =>
      { role := "user",
        content := some (WireMessageContent.Text user_message),
        tool_calls := none,
        tool_call_id := none }

/-- `NativeAgent::build_messages_with_history`: optional system message
(session prompt preferred over the config prompt), then the transcoded
history, then the new user message. -/
def build_messages_with_history (cfg : AgentConfig) (session : AgentSession)
    (user_message : String) (images : Option (List ImageData)) : List ChatMessage :=
  let system_prompt := session.system_prompt.or cfg.system_prompt
  let sysMsgs : List ChatMessage :=
    match system_prompt with
    | some prompt =>
        [{ role := "system", content := some (WireMessageContent.Text prompt),
           tool_calls := none, tool_call_id := none }]
    | none => []
  sysMsgs ++ session.messages.map convert_to_chat_message ++ [newUserMessage user_message images]

/-- `NativeAgent::build_single_messages`: like the history variant but with
no session, so only the config prompt can contribute a system message. -/
def build_single_messages (cfg : AgentConfig)
    (user_message : String) (images : Option (List ImageData)) : List ChatMessage :=
  let sysMsgs : List ChatMessage :=
    match cfg.system_prompt with
    | some prompt =>
        [{ role := "system", content := some (WireMessageContent.Text prompt),
           tool_calls := none, tool_call_id := none }]
    | none => []
  sysMsgs ++ [newUserMessage user_message images]

/-! ## Non-streaming chat (`NativeAgent::chat`) -/

/-- `reqwest` success check: a 2xx status code.  The source formats the
status with `Display`, which renders at least the numeric code; the model
renders exactly the numeric code. -/
def statusIsSuccess (status : Nat) : Bool :=
  decide (200 ≤ status) && decide (status < 300)

/-- The transport outcome of the single request performed by `chat`: either
the send itself fails, or a response arrives with a status, the text body
(read on the non-success path) and the body parsed as
`ChatCompletionResponse` (read on the success path, `none` when
deserialization fails). -/
inductive ChatHttpOutcome where
  | sendErr (msg : String)
  | resp (status : Nat) (bodyText : String) (parsedBody : Option ChatCompletionResponse)

/-- `NativeAgent::chat`: the assembled messages
(`build_messages_with_history` / `build_single_messages`) feed only the
outbound request body, which is abstracted by `outcome`; the observable
behaviour is the returned result and the session-store update. -/
def chat (cfg : AgentConfig) (store : Store) (req : NativeChatRequest)
    (outcome : ChatHttpOutcome) (now : Nat) :
    Except String NativeChatResponse × Store :=
  let model := req.model.getD cfg.model
  match outcome with
  | .sendErr e => (.error ("请求失败: " ++ e), store)
  | .resp status bodyText parsedBody =>
    if statusIsSuccess status then
      match parsedBody with
      | none => (.error "解析响应失败", store)
      | some body =>
        let content := (body.choices.head?.bind (fun c => c.message.content)).getD ""
        let usage := some { input_tokens := body.usage.prompt_tokens,
                            output_tokens := body.usage.completion_tokens : TokenUsage }
        let store1 :=
          match req.session_id with
          | some sid =>
              add_message_to_session
                (add_message_to_session store sid "user"
                  (MessageContent.Text req.message) req.images now)
                sid "assistant" (MessageContent.Text content) none now
          | none => store
        (.ok { content := content, model := body.model, usage := usage,
               success := true, error := none }, store1)
    else
      (.ok { content := "", model := model, usage := none, success := false,
             error := some ("API 错误 (" ++ toString status ++ "): " ++ bodyText) },
       store)

/-! ## Dynamic JSON values (`serde_json::Value`) and parsing

`chat_stream` probes each streamed payload with
`serde_json::from_str::<Value>` followed by
`.get("choices") / .get(0) / .get("delta") / .get("content") / .as_str()`.
The value model and recursive-descent grammar below follow the JSON
standard as `serde_json` implements it (strict escapes, surrogate-pair
handling, no trailing garbage, last duplicate object key wins). -/

/-- A dynamic JSON value; numeric literals are kept as raw text since the
decoder never reads numbers. -/
inductive JsonVal where
  | null
  | bool (b : Bool)
  | num (raw : String)
  | str (s : String)
  | arr (elems : List JsonVal)
  | obj (fields : List (String × JsonVal))

/-- The opening-brace character, kept out of literals. -/
def lbrace : Char := Char.ofNat 123

/-- The closing-brace character, kept out of literals. -/
def rbrace : Char := Char.ofNat 125

/-- JSON insignificant whitespace. -/
def jsonWs (c : Char) : Bool :=
  c == ' ' || c == '\t' || c == '\n' || c == '\r'

/-- Drop leading JSON whitespace. -/
def skipWs : List Char → List Char
  | [] => []
  | c :: rest => if jsonWs c then skipWs rest else c :: rest

/-- Value of one hexadecimal digit. -/
def hexDigitVal? (c : Char) : Option Nat :=
  if c.isDigit then some (c.toNat - '0'.toNat)
  else if 'a' ≤ c ∧ c ≤ 'f' then some (c.toNat - 'a'.toNat + 10)
  else if 'A' ≤ c ∧ c ≤ 'F' then some (c.toNat - 'A'.toNat + 10)
  else none

/-- Parse exactly four hexadecimal digits. -/
def parseHex4 : List Char → Option (Nat × List Char)
  | a :: b :: c :: d :: rest => do
    let va ← hexDigitVal? a
    let vb ← hexDigitVal? b
    let vc ← hexDigitVal? c
    let vd ← hexDigitVal? d
    some (va * 4096 + vb * 256 + vc * 16 + vd, rest)
  | _ => none

/-- Parse the body of a JSON string after its opening quote, returning the
decoded characters and the rest of the input past the closing quote.
Escapes follow `serde_json`: the eight simple escapes plus `\uXXXX`, with
mandatory surrogate pairing and no raw control characters. -/
def parseStringBody : Nat → List Char → Option (List Char × List Char)
  | 0, _ => none
  | _, [] => none
  | fuel + 1, c :: rest =>
    if c = '"' then some ([], rest)
    else if c = '\\' then
      match rest with
      | [] => none
      | e :: rest2 =>
        let kont : Char → List Char → Option (List Char × List Char) := fun ch rem =>
          (parseStringBody fuel rem).map (fun sr => (ch :: sr.1, sr.2))
        if e = '"' then kont '"' rest2
        else if e = '\\' then kont '\\' rest2
        else if e = '/' then kont '/' rest2
        else if e = 'b' then kont (Char.ofNat 8) rest2
        else if e = 'f' then kont (Char.ofNat 12) rest2
        else if e = 'n' then kont '\n' rest2
        else if e = 'r' then kont '\r' rest2
        else if e = 't' then kont '\t' rest2
        else if e = 'u' then
          match parseHex4 rest2 with
          | none => none
          | some (n, rest3) =>
            if 0xD800 ≤ n ∧ n ≤ 0xDBFF then
              match rest3 with
              | '\\' :: 'u' :: rest4 =>
                match parseHex4 rest4 with
                | some (m, rest5) =>
                  if 0xDC00 ≤ m ∧ m ≤ 0xDFFF then
                    kont (Char.ofNat (0x10000 + (n - 0xD800) * 0x400 + (m - 0xDC00))) rest5
                  else none
                | none => none
              | _ => none
            else if 0xDC00 ≤ n ∧ n ≤ 0xDFFF then none
            else kont (Char.ofNat n) rest3
        else none
    else if c.toNat < 0x20 then none
    else (parseStringBody fuel rest).map (fun sr => (c :: sr.1, sr.2))

/-- Parse a JSON numeric literal (sign, integer part without leading zeros,
optional fraction, optional exponent), returning its raw characters. -/
def parseNumberChars (l : List Char) : Option (List Char × List Char) :=
  let signAndRest : List Char × List Char :=
    match l with
    | '-' :: rest => (['-'], rest)
    | _ => ([], l)
  let sign := signAndRest.1
  let afterInt : List Char → List Char → Option (List Char × List Char) := fun acc l2 =>
    let fracced : Option (List Char × List Char) :=
      match l2 with
      | '.' :: rest =>
        let sp := rest.span (·.isDigit)
        if sp.1.isEmpty then none else some (acc ++ '.' :: sp.1, sp.2)
      | _ => some (acc, l2)
    match fracced with
    | none => none
    | some (acc2, l3) =>
      match l3 with
      | e :: rest =>
        if e = 'e' ∨ e = 'E' then
          let signedRest : List Char × List Char :=
            match rest with
            | '+' :: r => (['+'], r)
            | '-' :: r => (['-'], r)
            | _ => ([], rest)
          let sp := signedRest.2.span (·.isDigit)
          if sp.1.isEmpty then none
          else some (acc2 ++ e :: signedRest.1 ++ sp.1, sp.2)
        else some (acc2, l3)
      | [] => some (acc2, l3)
  match signAndRest.2 with
  | '0' :: rest => afterInt (sign ++ ['0']) rest
  | c :: rest =>
    if c.isDigit then
      let sp := rest.span (·.isDigit)
      afterInt (sign ++ c :: sp.1) sp.2
    else none
  | [] => none

mutual

/-- Parse one JSON value after skipping leading whitespace. -/
def parseVal : Nat → List Char → Option (JsonVal × List Char)
  | 0, _ => none
  | fuel + 1, l =>
    match skipWs l with
    | [] => none
    | c :: rest =>
      if c = 'n' then
        match rest with
        | 'u' :: 'l' :: 'l' :: r => some (.null, r)
        | _ => none
      else if c = 't' then
        match rest with
        | 'r' :: 'u' :: 'e' :: r => some (.bool true, r)
        | _ => none
      else if c = 'f' then
        match rest with
        | 'a' :: 'l' :: 's' :: 'e' :: r => some (.bool false, r)
        | _ => none
      else if c = '"' then
        (parseStringBody (rest.length + 1) rest).map (fun sr => (.str (String.mk sr.1), sr.2))
      else if c = '[' then
        match skipWs rest with
        | ']' :: r => some (.arr [], r)
        | l2 => (parseArrElems fuel l2).map (fun er => (.arr er.1, er.2))
      else if c = lbrace then
        match skipWs rest with
        | c2 :: r2 =>
          if c2 = rbrace then some (.obj [], r2)
          else (parseObjFields fuel (c2 :: r2)).map (fun fr => (.obj fr.1, fr.2))
        | [] => none
      else
        (parseNumberChars (c :: rest)).map (fun nr => (.num (String.mk nr.1), nr.2))

/-- Parse the remaining elements of a non-empty JSON array. -/
def parseArrElems : Nat → List Char → Option (List JsonVal × List Char)
  | 0, _ => none
  | fuel + 1, l =>
    match parseVal fuel l with
    | none => none
    | some (v, r) =>
      match skipWs r with
      | ',' :: r2 => (parseArrElems fuel r2).map (fun er => (v :: er.1, er.2))
      | ']' :: r2 => some ([v], r2)
      | _ => none

/-- Parse the remaining fields of a non-empty JSON object. -/
def parseObjFields : Nat → List Char → Option (List (String × JsonVal) × List Char)
  | 0, _ => none
  | fuel + 1, l =>
    match skipWs l with
    | '"' :: r =>
      match parseStringBody (r.length + 1) r with
      | none => none
      | some (k, r2) =>
        match skipWs r2 with
        | ':' :: r3 =>
          match parseVal fuel r3 with
          | none => none
          | some (v, r4) =>
            match skipWs r4 with
            | ',' :: r5 =>
                (parseObjFields fuel r5).map (fun fr => ((String.mk k, v) :: fr.1, fr.2))
            | c5 :: r5 => if c5 = rbrace then some ([(String.mk k, v)], r5) else none
            | [] => none
        | _ => none
    | _ => none

end

/-- `serde_json::from_str::<Value>` on a character list: parse one value and
require only whitespace to remain.  Every nesting level consumes at least
one character before descending, so `l.length + 1` fuel always suffices. -/
def Json.parseChars (l : List Char) : Option JsonVal :=
  match parseVal (l.length + 1) l with
  | some (v, rest) => if (skipWs rest).isEmpty then some v else none
  | none => none

/-- `Value::get` with a string key: object field lookup.  `serde_json`'s map
keeps the last duplicate key inserted while parsing, hence the reversed
search. -/
def JsonVal.getField? : JsonVal → String → Option JsonVal
  | .obj fields, k => (fields.reverse.find? (fun f => f.1 == k)).map (·.2)
  | _, _ => none

/-- `Value::get` with an integer index: array element lookup. -/
def JsonVal.getIdx? : JsonVal → Nat → Option JsonVal
  | .arr xs, i => xs.get? i
  | _, _ => none

/-- `Value::as_str`. -/
def JsonVal.asStr? : JsonVal → Option String
  | .str s => some s
  | _ => none

/-- The probe `json.get("choices").and_then(get(0)).and_then(get("delta"))
.and_then(get("content")).and_then(as_str)` from `chat_stream`. -/
def extractDelta (j : JsonVal) : Option String :=
  ((((j.getField? "choices").bind (fun c => c.getIdx? 0)).bind
      (fun c => c.getField? "delta")).bind
    (fun d => d.getField? "content")).bind (fun c => c.asStr?)

/-! ## Stream decoder (`NativeAgent::chat_stream`) -/

/-- Split a character list at newline characters (helper for `rustLines`). -/
def splitNewlines : List Char → List Char → List (List Char)
  | [], acc => [acc.reverse]
  | c :: rest, acc =>
      if c = '\n' then acc.reverse :: splitNewlines rest []
      else splitNewlines rest (c :: acc)

/-- Rust `str::lines` on an event block: split at `\n`, drop the final empty
segment produced by a trailing newline, and strip one trailing `\r` from
each line. -/
def rustLines (l : List Char) : List (List Char) :=
  let parts := splitNewlines l []
  let parts :=
    match parts.getLast? with
    | some [] => parts.dropLast
    | _ => parts
  parts.map fun line =>
    match line.getLast? with
    | some '\r' => line.dropLast
    | _ => line

/-- Rust `str::strip_prefix`: the rest of the line after the given prefix,
when it starts with it.  (Rust trims Unicode whitespace in `trim`; the
protocol's payloads are ASCII, where `Char.isWhitespace` agrees.) -/
def dropPre : List Char → List Char → Option (List Char)
  | [], l => some l
  | _ :: _, [] => none
  | p :: ps, c :: cs => if p = c then dropPre ps cs else none

/-- Rust `str::trim` restricted to ASCII whitespace. -/
def rustTrim (l : List Char) : List Char :=
  ((l.dropWhile Char.isWhitespace).reverse.dropWhile Char.isWhitespace).reverse

/-- Process one line of an event block, threading the `full_content`
accumulator: lines without the `data: ` marker are skipped; a sentinel
payload stops the stream (third component `true`); otherwise a payload that
parses and carries a non-empty `choices[0].delta.content` string emits that
increment as a `TextDelta` and appends it to the accumulator, and anything
else is skipped silently. -/
def processLine (line : List Char) (full : String) : List StreamEvent × String × Bool :=
  match dropPre "data: ".data line with
  | none => ([], full, false)
  | some data =>
    if rustTrim data = "[DONE]".data then ([], full, true)
    else
      match Json.parseChars data with
      | some json =>
        match extractDelta json with
        | some delta =>
            if delta.isEmpty then ([], full, false)
            else ([StreamEvent.TextDelta delta], full ++ delta, false)
        | none => ([], full, false)
      | none => ([], full, false)

/-- Process the lines of one event block in order, stopping at the first
sentinel line; lines after the sentinel in the same block are discarded. -/
def processLines : List (List Char) → String → List StreamEvent × String × Bool
  | [], full => ([], full, false)
  | line :: rest, full =>
    match processLine line full with
    | (evs, full1, true) => (evs, full1, true)
    | (evs, full1, false) =>
      let r := processLines rest full1
      (evs ++ r.1, r.2.1, r.2.2)

/-- `buffer.find("\n\n")` with the two slices `buffer[..pos]` and
`buffer[pos + 2..]`: the text before the first blank-line boundary and the
text after it. -/
def splitOnBoundary : List Char → Option (List Char × List Char)
  | '\n' :: '\n' :: rest => some ([], rest)
  | c :: rest => (splitOnBoundary rest).map (fun ab => (c :: ab.1, ab.2))
  | [] => none

/-- The inner while-loop of `chat_stream`: repeatedly slice one event block
off the buffer at a blank-line boundary and process its lines, stopping
early when a block reaches the sentinel.  Each iteration shortens the
buffer by at least two characters, so `buffer.length + 1` fuel always
suffices at the call site; exhausted fuel behaves like a buffer without a
boundary. -/
def drainBuffer : Nat → List Char → String → List StreamEvent × List Char × String × Bool
  | 0, buffer, full => ([], buffer, full, false)
  | fuel + 1, buffer, full =>
    match splitOnBoundary buffer with
    | none => ([], buffer, full, false)
    | some (block, rest) =>
      match processLines (rustLines block) full with
      | (evs, full1, true) => (evs, rest, full1, true)
      | (evs, full1, false) =>
        let r := drainBuffer fuel rest full1
        (evs ++ r.1, r.2.1, r.2.2.1, r.2.2.2)

/-- How the chunk-consumption loop of `chat_stream` ended: the sentinel was
reached, a chunk read failed, or the byte feed closed. -/
inductive StreamEnd where
  | sentinel (full : String)
  | readErr (e : String)
  | closed (full : String)
deriving DecidableEq

/-- The `while let Some(chunk) = stream.next()` loop of `chat_stream`:
append each received chunk to the buffer and drain complete event blocks;
return on the sentinel (dropping the remaining buffer and chunks), on a
chunk read error, or when the feed closes. -/
def runChunks : List (Except String String) → List Char → String → List StreamEvent × StreamEnd
  | [], _, full => ([], .closed full)
  | .error e :: _, _, _ => ([], .readErr e)
  | .ok text :: rest, buffer, full =>
    let buf := buffer ++ text.data
    match drainBuffer (buf.length + 1) buf full with
    | (evs, _, full1, true) => (evs, .sentinel full1)
    | (evs, buffer1, full1, false) =>
      let r := runChunks rest buffer1 full1
      (evs ++ r.1, r.2)

/-- The transport outcome of the streaming request: either the send itself
fails, or a response arrives with a status, the text body (read on the
non-success path) and the sequence of chunk read results delivered by
`bytes_stream` (consumed on the success path). -/
inductive StreamOutcome where
  | sendErr (msg : String)
  | resp (status : Nat) (errBody : String) (chunks : List (Except String String))

/-- The history commit performed when the stream finalizes with a session
id: one user message (with the request's images) followed by one assistant
message carrying the accumulated full content. -/
def commitTurn (store : Store) (sid : String) (req : NativeChatRequest)
    (full : String) (now : Nat) : Store :=
  add_message_to_session
    (add_message_to_session store sid "user"
      (MessageContent.Text req.message) req.images now)
    sid "assistant" (MessageContent.Text full) none now

/-- `NativeAgent::chat_stream`: the result is the list of events sent on the
output channel, the updated session store, and the function's return value.
As in `chat`, the assembled request messages feed only the outbound body,
abstracted by `outcome`.  Note that a failed send returns an error without
sending any event. -/
def chat_stream (_cfg : AgentConfig) (store : Store) (req : NativeChatRequest)
    (outcome : StreamOutcome) (now : Nat) :
    List StreamEvent × Store × Except String Unit :=
  match outcome with
  | .sendErr e => ([], store, .error ("请求失败: " ++ e))
  | .resp status errBody chunks =>
    if statusIsSuccess status then
      match runChunks chunks [] "" with
      | (evs, .readErr e) =>
          (evs ++ [StreamEvent.Error ("流读取错误: " ++ e)], store,
           .error ("流读取错误: " ++ e))
      | (evs, .sentinel full) =>
          let store1 :=
            match req.session_id with
            | some sid => commitTurn store sid req full now
            | none => store
          (evs ++ [StreamEvent.Done none], store1, .ok ())
      | (evs, .closed full) =>
          let store1 :=
            match req.session_id with
            | some sid => commitTurn store sid req full now
            | none => store
          (evs ++ [StreamEvent.Done none], store1, .ok ())
    else
      ([StreamEvent.Error ("API 错误 (" ++ toString status ++ "): " ++ errBody)],
       store, .error ("API 错误: " ++ toString status))

/-! ## Derived notions and concrete fixtures used by the statements -/

/-- Checks the spec's channel invariant on a finished event list: all events
but the last are non-terminal, and the last event exists and is terminal. -/
def eventsTerminalOk (evs : List StreamEvent) : Bool :=
  evs.dropLast.all (fun e => !e.isTerminal) &&
    match evs.getLast? with
    | some e => e.isTerminal
    | none => false

/-- The payload probe of `chat_stream` as one function: parse, then extract
`choices[0].delta.content`. -/
def deltaOf (data : List Char) : Option String :=
  (Json.parseChars data).bind extractDelta

/-- A history content part and its wire transcoding correspond: text maps to
text with the same string, an image reference maps to an image reference
with the same url and detail. -/
def partTranscoded : ContentPart → WireContentPart → Prop
  | ContentPart.Text t, WireContentPart.Text t' => t' = t
  | ContentPart.ImageUrl iu, WireContentPart.ImageUrl wiu =>
      wiu.url = iu.url ∧ wiu.detail = iu.detail
  | _, _ => False

/-- A history content and a wire content field correspond: the variant is
preserved, `Text` keeps its string and `Parts` keeps its parts pointwise. -/
def contentTranscoded : MessageContent → Option WireMessageContent → Prop
  | MessageContent.Text t, some (WireMessageContent.Text t') => t' = t
  | MessageContent.Parts ps, some (WireMessageContent.Parts wps) =>
      List.Forall₂ partTranscoded ps wps
  | _, _ => False

/-- A history tool call and its wire transcoding carry the same id, type and
function fields. -/
def toolCallTranscoded (tc : ToolCall) (w : WireToolCall) : Prop :=
  w.id = tc.id ∧ w.call_type = tc.call_type
    ∧ w.function.name = tc.function.name ∧ w.function.arguments = tc.function.arguments

/-- A history message and a wire message correspond 1:1: same role, content
variant preserved, tool-call fields preserved. -/
def msgTranscoded (m : AgentMessage) (w : ChatMessage) : Prop :=
  w.role = m.role
    ∧ contentTranscoded m.content w.content
    ∧ w.tool_call_id = m.tool_call_id
    ∧ ((m.tool_calls = none ∧ w.tool_calls = none)
        ∨ ∃ cs ws, m.tool_calls = some cs ∧ w.tool_calls = some ws
            ∧ List.Forall₂ toolCallTranscoded cs ws)

/-- A sample session without a session-level system prompt. -/
def sampleSession : AgentSession :=
  { id := "s1", model := "m", messages := [], system_prompt := none,
    created_at := 0, updated_at := 3 }

/-- A sample session carrying a session-level system prompt. -/
def sampleSessionP : AgentSession :=
  { id := "s2", model := "m", messages := [], system_prompt := some "be brief",
    created_at := 0, updated_at := 3 }

/-- A sample store holding the two sample sessions. -/
def sampleStore : Store := [("s1", sampleSession), ("s2", sampleSessionP)]

/-- A sample agent configuration. -/
def sampleCfg : AgentConfig := { model := "m", system_prompt := none }

/-- A sample request addressing session `s1`. -/
def sampleReq : NativeChatRequest :=
  { session_id := some "s1", message := "hello", model := none,
    images := none, stream := true }

/-- Scenario chunk: one event block whose delta content is `Hi`. -/
def chunkHi : String :=
  "data: \x7b\"choices\":[\x7b\"delta\":\x7b\"content\":\"Hi\"\x7d\x7d]\x7d\n\n"

/-- Scenario chunk: one event block whose delta content is `A`. -/
def chunkA : String :=
  "data: \x7b\"choices\":[\x7b\"delta\":\x7b\"content\":\"A\"\x7d\x7d]\x7d\n\n"

/-- Scenario chunk: the sentinel block. -/
def chunkDone : String := "data: [DONE]\n\n"

/-- A sample parsed non-streaming response body with an empty `choices`
array. -/
def sampleBody : ChatCompletionResponse :=
  { choices := [], model := "mm",
    usage := { prompt_tokens := 1, completion_tokens := 2 } }

/-! ## Supporting lemmas: session store -/

theorem Store.get?_modify (store : Store) (sid : String) (f : AgentSession → AgentSession) :
    Store.get? (Store.modify store sid f) sid = (Store.get? store sid).map f := by
  induction store with
  | nil => rfl
  | cons e rest ih =>
    cases h : (e.1 == sid) with
    | true => simp [Store.get?, Store.modify, List.find?, h]
    | false =>
      simp only [Store.get?, Store.modify, List.map_cons, List.find?, h,
        Bool.false_eq_true, if_false]
      simpa [Store.get?, Store.modify] using ih

theorem Store.find?_none_of_get?_none (store : Store) (sid : String)
    (h : Store.get? store sid = none) : store.find? (fun e => e.1 == sid) = none := by
  cases hf : store.find? (fun e => e.1 == sid) with
  | none => rfl
  | some v => simp [Store.get?, hf] at h

theorem Store.modify_of_absent (store : Store) (sid : String) (f : AgentSession → AgentSession)
    (h : Store.get? store sid = none) : Store.modify store sid f = store := by
  have hall := List.find?_eq_none.mp (Store.find?_none_of_get?_none store sid h)
  have h2 : ∀ e ∈ store, (if (e.1 == sid) = true then (e.1, f e.2) else e) = id e := by
    intro e he
    rw [if_neg (hall e he)]
    rfl
  simp only [Store.modify]
  rw [List.map_congr_left h2, List.map_id]

theorem Store.filter_of_absent (store : Store) (sid : String)
    (h : Store.get? store sid = none) : store.filter (fun e => !(e.1 == sid)) = store := by
  have hall := List.find?_eq_none.mp (Store.find?_none_of_get?_none store sid h)
  exact List.filter_eq_self.mpr fun e he => by simp [hall e he]

theorem Store.get?_add_message (store : Store) (sid : String) (role : String)
    (content : MessageContent) (images : Option (List ImageData)) (now : Nat) :
    Store.get? (add_message_to_session store sid role content images now) sid
      = (Store.get? store sid).map fun session =>
          { session with
            messages := session.messages ++ [pushedMessage role content images now],
            updated_at := now } :=
  Store.get?_modify store sid _

theorem Store.get?_commitTurn (store : Store) (sid : String) (req : NativeChatRequest)
    (full : String) (now : Nat) (sess : AgentSession)
    (h : Store.get? store sid = some sess) :
    Store.get? (commitTurn store sid req full now) sid = some
      { sess with
        messages := sess.messages ++
          [pushedMessage "user" (MessageContent.Text req.message) req.images now,
           pushedMessage "assistant" (MessageContent.Text full) none now],
        updated_at := now } := by
  simp [commitTurn, Store.get?_add_message, h]

/-! ## Supporting lemmas: events emitted by the decoding loops -/

theorem processLine_events (line : List Char) (full : String) :
    ∀ e ∈ (processLine line full).1, e.isTerminal = false := by
  unfold processLine
  repeat' split
  all_goals simp_all [StreamEvent.isTerminal]

theorem processLines_events (lines : List (List Char)) (full : String) :
    ∀ e ∈ (processLines lines full).1, e.isTerminal = false := by
  induction lines generalizing full with
  | nil => simp [processLines]
  | cons line rest ih =>
    intro e he
    rcases hp : processLine line full with ⟨evs, full1, stop⟩
    simp only [processLines, hp] at he
    have hline := processLine_events line full
    rw [hp] at hline
    cases stop with
    | true => exact hline e he
    | false =>
      simp only at he
      rcases List.mem_append.mp he with h1 | h2
      · exact hline e h1
      · exact ih full1 e h2

theorem drainBuffer_events (fuel : Nat) (buffer : List Char) (full : String) :
    ∀ e ∈ (drainBuffer fuel buffer full).1, e.isTerminal = false := by
  induction fuel generalizing buffer full with
  | zero => simp [drainBuffer]
  | succ fuel ih =>
    intro e he
    rcases hs : splitOnBoundary buffer with _ | ⟨block, rest⟩
    · simp only [drainBuffer, hs] at he
      simp at he
    · rcases hp : processLines (rustLines block) full with ⟨evs, full1, stop⟩
      simp only [drainBuffer, hs, hp] at he
      have hlines := processLines_events (rustLines block) full
      rw [hp] at hlines
      cases stop with
      | true => exact hlines e he
      | false =>
        simp only at he
        rcases List.mem_append.mp he with h1 | h2
        · exact hlines e h1
        · exact ih rest full1 e h2

theorem runChunks_events (chunks : List (Except String String)) (buffer : List Char) (full : String) :
    ∀ e ∈ (runChunks chunks buffer full).1, e.isTerminal = false := by
  induction chunks generalizing buffer full with
  | nil => simp [runChunks]
  | cons chunk rest ih =>
    intro e he
    cases chunk with
    | error msg => simp [runChunks] at he
    | ok text =>
      rcases hd : drainBuffer ((buffer ++ text.data).length + 1) (buffer ++ text.data) full with
        ⟨evs, buffer1, full1, stop⟩
      simp only [runChunks, hd] at he
      have hdrain := drainBuffer_events ((buffer ++ text.data).length + 1) (buffer ++ text.data) full
      rw [hd] at hdrain
      cases stop with
      | true => exact hdrain e he
      | false =>
        simp only at he
        rcases List.mem_append.mp he with h1 | h2
        · exact hdrain e h1
        · exact ih buffer1 full1 e h2

theorem eventsTerminalOk_concat (evs : List StreamEvent) (t : StreamEvent)
    (h : ∀ e ∈ evs, e.isTerminal = false) (ht : t.isTerminal = true) :
    eventsTerminalOk (evs ++ [t]) = true := by
  simp only [eventsTerminalOk, List.dropLast_concat, List.getLast?_concat, ht,
    Bool.and_eq_true, List.all_eq_true]
  refine ⟨fun e he => by simp [h e he], trivial⟩

/-- C1 (counterexample): as stated, the claim fails on a connect failure:
`chat_stream` then returns an error to its caller without delivering any
event on the output channel, so no terminal event is emitted. -/
theorem C1_counterexample :
    (chat_stream sampleCfg sampleStore sampleReq
        (StreamOutcome.sendErr "connection refused") 5).1 = []
    ∧ eventsTerminalOk (chat_stream sampleCfg sampleStore sampleReq
        (StreamOutcome.sendErr "connection refused") 5).1 = false :=
  ⟨rfl, rfl⟩

/-- C1 (amended): for every invocation of `chat_stream`, the delivered
events are zero or more `TextDelta` events followed by at most one terminal
event, which is last when present; whenever the request itself is sent and a
response status arrives (every outcome other than a connect failure),
exactly one terminal event is emitted, unique and last.  On a connect
failure no event is delivered at all. -/
theorem C1_stream_events (cfg : AgentConfig) (store : Store) (req : NativeChatRequest)
    (outcome : StreamOutcome) (now : Nat) :
    (∀ e ∈ ((chat_stream cfg store req outcome now).1).dropLast, e.isTerminal = false)
    ∧ (∀ msg, outcome = StreamOutcome.sendErr msg →
        (chat_stream cfg store req outcome now).1 = [])
    ∧ (∀ status errBody chunks, outcome = StreamOutcome.resp status errBody chunks →
        eventsTerminalOk (chat_stream cfg store req outcome now).1 = true) := by
  cases outcome with
  | sendErr msg =>
    refine ⟨by simp [chat_stream], fun m hm => rfl, fun s b c h => by simp at h⟩
  | resp status errBody chunks =>
    have hevs := runChunks_events chunks [] ""
    rcases hr : runChunks chunks [] "" with ⟨evs, fin⟩
    rw [hr] at hevs
    by_cases hst : statusIsSuccess status = true
    · have hev : ∃ t, t.isTerminal = true ∧
          (chat_stream cfg store req (StreamOutcome.resp status errBody chunks) now).1
            = evs ++ [t] := by
        cases fin with
        | sentinel full =>
          refine ⟨StreamEvent.Done none, rfl, ?_⟩
          simp only [chat_stream, hst, if_true, hr]
        | readErr e =>
          refine ⟨StreamEvent.Error ("流读取错误: " ++ e), rfl, ?_⟩
          simp only [chat_stream, hst, if_true, hr]
        | closed full =>
          refine ⟨StreamEvent.Done none, rfl, ?_⟩
          simp only [chat_stream, hst, if_true, hr]
      rcases hev with ⟨t, ht, hev⟩
      refine ⟨?_, fun m hm => by simp at hm, fun s b c h => ?_⟩
      · rw [hev, List.dropLast_concat]
        exact hevs
      · rw [hev]
        exact eventsTerminalOk_concat evs t hevs ht
    · have hev : (chat_stream cfg store req (StreamOutcome.resp status errBody chunks) now).1
          = [StreamEvent.Error ("API 错误 (" ++ toString status ++ "): " ++ errBody)] := by
        simp only [chat_stream, hst, if_false, Bool.false_eq_true]
      refine ⟨?_, fun m hm => by simp at hm, fun s b c h => ?_⟩
      · rw [hev]
        simp
      · rw [hev]
        rfl

/-- C1 (witness): a concrete streamed exchange ending in the sentinel
satisfies the channel invariant. -/
theorem C1_witness :
    eventsTerminalOk (chat_stream sampleCfg sampleStore sampleReq
      (StreamOutcome.resp 200 "" [Except.ok chunkHi, Except.ok chunkDone]) 5).1 = true :=
  (C1_stream_events sampleCfg sampleStore sampleReq
      (StreamOutcome.resp 200 "" [Except.ok chunkHi, Except.ok chunkDone]) 5).2.2
    200 "" [Except.ok chunkHi, Except.ok chunkDone] rfl

/-- C2: Scenario A.  Feeding the decoder the `Hi` delta block and then the
sentinel block yields exactly `[TextDelta "Hi", Done]`; on observing the
sentinel, processing stops immediately — any bytes buffered after the
sentinel (`tail`) and any further chunks (`extra`) are discarded and
produce no events; and when a session id naming an existing session was
supplied, that session gains exactly a user message followed by an
assistant message whose text is `Hi`. -/
theorem C2_scenarioA (cfg : AgentConfig) (store : Store) (req : NativeChatRequest)
    (now : Nat) (tail : String) (extra : List (Except String String)) :
    (chat_stream cfg store req
        (StreamOutcome.resp 200 ""
          ([Except.ok chunkHi, Except.ok (chunkDone ++ tail)] ++ extra)) now).1
      = [StreamEvent.TextDelta "Hi", StreamEvent.Done none]
    ∧ (∀ sid sess, req.session_id = some sid → Store.get? store sid = some sess →
        Store.get? (chat_stream cfg store req
            (StreamOutcome.resp 200 ""
              ([Except.ok chunkHi, Except.ok (chunkDone ++ tail)] ++ extra)) now).2.1 sid
          = some { sess with
              messages := sess.messages ++
                [pushedMessage "user" (MessageContent.Text req.message) req.images now,
                 pushedMessage "assistant" (MessageContent.Text "Hi") none now],
              updated_at := now })
    ∧ (pushedMessage "user" (MessageContent.Text req.message) req.images now).role = "user"
    ∧ (pushedMessage "assistant" (MessageContent.Text "Hi") none now).role = "assistant"
    ∧ (pushedMessage "assistant" (MessageContent.Text "Hi") none now).content
        = MessageContent.Text "Hi" := by
  have hrun : runChunks ([Except.ok chunkHi, Except.ok (chunkDone ++ tail)] ++ extra) [] ""
      = ([StreamEvent.TextDelta "Hi"], StreamEnd.sentinel "Hi") := rfl
  refine ⟨rfl, ?_, rfl, rfl, rfl⟩
  intro sid sess hsid hget
  have hstore : (chat_stream cfg store req
      (StreamOutcome.resp 200 ""
        ([Except.ok chunkHi, Except.ok (chunkDone ++ tail)] ++ extra)) now).2.1
      = commitTurn store sid req "Hi" now := by
    simp only [chat_stream, hrun, hsid]
    rfl
  rw [hstore]
  exact Store.get?_commitTurn store sid req "Hi" now sess hget

/-- C2 (witness): the scenario applied to a concrete existing session. -/
theorem C2_witness :
    (chat_stream sampleCfg sampleStore sampleReq
        (StreamOutcome.resp 200 ""
          ([Except.ok chunkHi, Except.ok (chunkDone ++ "")] ++ [])) 5).1
      = [StreamEvent.TextDelta "Hi", StreamEvent.Done none]
    ∧ Store.get? (chat_stream sampleCfg sampleStore sampleReq
          (StreamOutcome.resp 200 ""
            ([Except.ok chunkHi, Except.ok (chunkDone ++ "")] ++ [])) 5).2.1 "s1"
        = some { sampleSession with
            messages := sampleSession.messages ++
              [pushedMessage "user" (MessageContent.Text sampleReq.message) sampleReq.images 5,
               pushedMessage "assistant" (MessageContent.Text "Hi") none 5],
            updated_at := 5 } :=
  ⟨(C2_scenarioA sampleCfg sampleStore sampleReq 5 "" []).1,
   (C2_scenarioA sampleCfg sampleStore sampleReq 5 "" []).2.1 "s1" sampleSession rfl rfl⟩

/-- C3: Scenario B.  Feeding only the `A` delta block and then closing the
feed without a sentinel still yields exactly `[TextDelta "A", Done]`, with
the same history commit as the sentinel path, using `A` as the accumulated
assistant text. -/
theorem C3_scenarioB (cfg : AgentConfig) (store : Store) (req : NativeChatRequest)
    (now : Nat) :
    (chat_stream cfg store req
        (StreamOutcome.resp 200 "" [Except.ok chunkA]) now).1
      = [StreamEvent.TextDelta "A", StreamEvent.Done none]
    ∧ (∀ sid sess, req.session_id = some sid → Store.get? store sid = some sess →
        Store.get? (chat_stream cfg store req
            (StreamOutcome.resp 200 "" [Except.ok chunkA]) now).2.1 sid
          = some { sess with
              messages := sess.messages ++
                [pushedMessage "user" (MessageContent.Text req.message) req.images now,
                 pushedMessage "assistant" (MessageContent.Text "A") none now],
              updated_at := now })
    ∧ (pushedMessage "user" (MessageContent.Text req.message) req.images now).role = "user"
    ∧ (pushedMessage "assistant" (MessageContent.Text "A") none now).role = "assistant"
    ∧ (pushedMessage "assistant" (MessageContent.Text "A") none now).content
        = MessageContent.Text "A" := by
  have hrun : runChunks [Except.ok chunkA] [] ""
      = ([StreamEvent.TextDelta "A"], StreamEnd.closed "A") := rfl
  refine ⟨rfl, ?_, rfl, rfl, rfl⟩
  intro sid sess hsid hget
  have hstore : (chat_stream cfg store req
      (StreamOutcome.resp 200 "" [Except.ok chunkA]) now).2.1
      = commitTurn store sid req "A" now := by
    simp only [chat_stream, hrun, hsid]
    rfl
  rw [hstore]
  exact Store.get?_commitTurn store sid req "A" now sess hget

/-- C3 (witness): the premature-close scenario applied to a concrete
existing session. -/
theorem C3_witness :
    (chat_stream sampleCfg sampleStore sampleReq
        (StreamOutcome.resp 200 "" [Except.ok chunkA]) 5).1
      = [StreamEvent.TextDelta "A", StreamEvent.Done none]
    ∧ Store.get? (chat_stream sampleCfg sampleStore sampleReq
          (StreamOutcome.resp 200 "" [Except.ok chunkA]) 5).2.1 "s1"
        = some { sampleSession with
            messages := sampleSession.messages ++
              [pushedMessage "user" (MessageContent.Text sampleReq.message) sampleReq.images 5,
               pushedMessage "assistant" (MessageContent.Text "A") none 5],
            updated_at := 5 } :=
  ⟨(C3_scenarioB sampleCfg sampleStore sampleReq 5).1,
   (C3_scenarioB sampleCfg sampleStore sampleReq 5).2.1 "s1" sampleSession rfl rfl⟩

/-- C4: a non-2xx response status makes `chat` return a soft failure — an
`Ok` result (no hard error) with `success = false` and an error message
containing the status code and the raw response body — and leaves the
session store untouched. -/
theorem C4_soft_api_error (cfg : AgentConfig) (store : Store) (req : NativeChatRequest)
    (status : Nat) (body : String) (parsed : Option ChatCompletionResponse) (now : Nat)
    (h : statusIsSuccess status = false) :
    chat cfg store req (ChatHttpOutcome.resp status body parsed) now
      = (Except.ok { content := "", model := req.model.getD cfg.model, usage := none,
                     success := false,
                     error := some ("API 错误 (" ++ toString status ++ "): " ++ body) },
         store)
    ∧ (∃ pre post, "API 错误 (" ++ toString status ++ "): " ++ body
        = pre ++ toString status ++ post)
    ∧ (∃ pre post, "API 错误 (" ++ toString status ++ "): " ++ body
        = pre ++ body ++ post) := by
  refine ⟨?_, ⟨"API 错误 (", "): " ++ body, ?_⟩,
    ⟨"API 错误 (" ++ toString status ++ "): ", "", ?_⟩⟩
  · simp only [chat, h, Bool.false_eq_true, if_false]
  · simp [String.append_assoc]
  · simp [String.append_assoc]

/-- C4 (witness): HTTP 500 with body `oops`. -/
theorem C4_witness :
    chat sampleCfg sampleStore sampleReq (ChatHttpOutcome.resp 500 "oops" none) 5
      = (Except.ok { content := "", model := "m", usage := none, success := false,
                     error := some "API 错误 (500): oops" }, sampleStore)
    ∧ (∃ pre post, "API 错误 (" ++ toString 500 ++ "): " ++ "oops"
        = pre ++ toString 500 ++ post) := by
  have h := C4_soft_api_error sampleCfg sampleStore sampleReq 500 "oops" none 5 rfl
  refine ⟨?_, h.2.1⟩
  rw [h.1]
  rfl

/-- C8: on a session id that is not in the store, `delete_session` and
`clear_session_messages` return `false` without creating a session, and the
turn-commit append (`add_message_to_session`, and hence a whole
`commitTurn`) is a silent no-op; in all cases the store is unchanged. -/
theorem C8_unknown_session (store : Store) (sid : String)
    (h : Store.get? store sid = none) :
    delete_session store sid = (false, store)
    ∧ (∀ now, clear_session_messages store sid now = (false, store))
    ∧ (∀ role content images now,
        add_message_to_session store sid role content images now = store)
    ∧ (∀ req full now, commitTurn store sid req full now = store) := by
  have hfind := Store.find?_none_of_get?_none store sid h
  have hadd : ∀ role content images now,
      add_message_to_session store sid role content images now = store :=
    fun _ _ _ _ => Store.modify_of_absent store sid _ h
  refine ⟨?_, ?_, hadd, ?_⟩
  · simp [delete_session, hfind, Store.filter_of_absent store sid h]
  · intro now
    simp [clear_session_messages, hfind]
  · intro req full now
    simp only [commitTurn, hadd]

/-- C8 (witness): the unknown id `nope` against the sample store. -/
theorem C8_witness :
    delete_session sampleStore "nope" = (false, sampleStore)
    ∧ clear_session_messages sampleStore "nope" 5 = (false, sampleStore)
    ∧ add_message_to_session sampleStore "nope" "user" (MessageContent.Text "x") none 5
        = sampleStore := by
  have h := C8_unknown_session sampleStore "nope" rfl
  exact ⟨h.1, h.2.1 5, h.2.2.1 "user" (MessageContent.Text "x") none 5⟩

/-- C9: every mutating operation on an existing session stamps `updated_at`
with the current clock, so under a monotone clock (`now` at least the
session's current `updated_at`) the session's `updated_at` never
decreases across appends and clears. -/
theorem C9_updated_at_monotone (store : Store) (sid : String) (sess : AgentSession) (now : Nat)
    (hget : Store.get? store sid = some sess) (hclk : sess.updated_at ≤ now) :
    (∀ role content images, ∃ sess',
        Store.get? (add_message_to_session store sid role content images now) sid = some sess'
          ∧ sess.updated_at ≤ sess'.updated_at)
    ∧ (∃ sess', Store.get? (clear_session_messages store sid now).2 sid = some sess'
          ∧ sess.updated_at ≤ sess'.updated_at) := by
  constructor
  · intro role content images
    refine ⟨{ sess with
        messages := sess.messages ++ [pushedMessage role content images now],
        updated_at := now }, ?_, ?_⟩
    · rw [Store.get?_add_message, hget]
      rfl
    · exact hclk
  · have hfind : (store.find? fun e => e.1 == sid).isSome = true := by
      cases hf : store.find? (fun e => e.1 == sid) with
      | none => simp [Store.get?, hf] at hget
      | some v => rfl
    refine ⟨{ sess with messages := [], updated_at := now }, ?_, ?_⟩
    · simp only [clear_session_messages, hfind, if_true]
      rw [Store.get?_modify, hget]
      rfl
    · exact hclk

/-- C9 (witness): appending to the sample session at a later clock value. -/
theorem C9_witness :
    ∃ sess', Store.get? (add_message_to_session sampleStore "s1" "user"
        (MessageContent.Text "x") none 5) "s1" = some sess'
      ∧ sampleSession.updated_at ≤ sess'.updated_at :=
  (C9_updated_at_monotone sampleStore "s1" sampleSession 5 rfl (by decide)).1 "user"
    (MessageContent.Text "x") none

/-- C10: a successful (2xx) response whose parsed body has an empty
`choices` array or a null first-choice message content yields
`success = true` with empty content and no error, and still commits a turn
whose assistant text is empty when a session id naming an existing session
was supplied. -/
theorem C10_empty_choice_content (cfg : AgentConfig) (store : Store) (req : NativeChatRequest)
    (status : Nat) (bodyText : String) (body : ChatCompletionResponse) (now : Nat)
    (hst : statusIsSuccess status = true)
    (hempty : body.choices = []
      ∨ ∃ ch rest, body.choices = ch :: rest ∧ ch.message.content = none) :
    (chat cfg store req (ChatHttpOutcome.resp status bodyText (some body)) now).1
      = Except.ok { content := "", model := body.model,
                    usage := some { input_tokens := body.usage.prompt_tokens,
                                    output_tokens := body.usage.completion_tokens },
                    success := true, error := none }
    ∧ (∀ sid sess, req.session_id = some sid → Store.get? store sid = some sess →
        Store.get? (chat cfg store req
            (ChatHttpOutcome.resp status bodyText (some body)) now).2 sid
          = some { sess with
              messages := sess.messages ++
                [pushedMessage "user" (MessageContent.Text req.message) req.images now,
                 pushedMessage "assistant" (MessageContent.Text "") none now],
              updated_at := now }) := by
  have hcontent : (body.choices.head?.bind fun c => c.message.content).getD "" = "" := by
    rcases hempty with h0 | ⟨ch, rest, hc, hnone⟩
    · simp [h0]
    · simp [hc, hnone]
  constructor
  · have h1 : (chat cfg store req (ChatHttpOutcome.resp status bodyText (some body)) now).1
        = Except.ok { content := (body.choices.head?.bind fun c => c.message.content).getD "",
                      model := body.model,
                      usage := some { input_tokens := body.usage.prompt_tokens,
                                      output_tokens := body.usage.completion_tokens },
                      success := true, error := none } := by
      simp only [chat, hst, if_true]
    rw [h1, hcontent]
  · intro sid sess hsid hget
    have hstore : (chat cfg store req (ChatHttpOutcome.resp status bodyText (some body)) now).2
        = commitTurn store sid req
            ((body.choices.head?.bind fun c => c.message.content).getD "") now := by
      simp only [chat, hst, if_true, hsid]
      rfl
    rw [hstore, hcontent]
    exact Store.get?_commitTurn store sid req "" now sess hget

/-- C10 (witness): a 2xx response with an empty `choices` array against the
sample session. -/
theorem C10_witness :
    (chat sampleCfg sampleStore sampleReq (ChatHttpOutcome.resp 200 "" (some sampleBody)) 5).1
      = Except.ok { content := "", model := "mm",
                    usage := some { input_tokens := 1, output_tokens := 2 },
                    success := true, error := none }
    ∧ Store.get? (chat sampleCfg sampleStore sampleReq
          (ChatHttpOutcome.resp 200 "" (some sampleBody)) 5).2 "s1"
        = some { sampleSession with
            messages := sampleSession.messages ++
              [pushedMessage "user" (MessageContent.Text sampleReq.message) sampleReq.images 5,
               pushedMessage "assistant" (MessageContent.Text "") none 5],
            updated_at := 5 } := by
  have h := C10_empty_choice_content sampleCfg sampleStore sampleReq 200 "" sampleBody 5 rfl
    (Or.inl rfl)
  exact ⟨h.1, h.2 "s1" sampleSession rfl rfl⟩

/-! ## Supporting lemmas: transcoding and line handling -/

theorem convert_transcodes (m : AgentMessage) : msgTranscoded m (convert_to_chat_message m) := by
  refine ⟨rfl, ?_, rfl, ?_⟩
  · cases hc : m.content with
    | Text t => simp [convert_to_chat_message, contentTranscoded, hc]
    | Parts ps =>
      simp only [convert_to_chat_message, hc, contentTranscoded]
      rw [List.forall₂_map_right_iff]
      refine List.forall₂_same.mpr fun p hp => ?_
      cases p <;> simp [partTranscoded]
  · cases ht : m.tool_calls with
    | none => exact Or.inl ⟨rfl, by simp [convert_to_chat_message, ht]⟩
    | some calls =>
      refine Or.inr ⟨calls, calls.map (fun tc =>
        { id := tc.id, call_type := tc.call_type,
          function := { name := tc.function.name,
                        arguments := tc.function.arguments } }), rfl, ?_, ?_⟩
      · simp [convert_to_chat_message, ht]
      · rw [List.forall₂_map_right_iff]
        exact List.forall₂_same.mpr fun tc htc => ⟨rfl, rfl, rfl, rfl⟩

theorem dropPre_append (p l : List Char) : dropPre p (p ++ l) = some l := by
  induction p with
  | nil => rfl
  | cons c cs ih => simp [dropPre, ih]

/-- C5: `build_messages_with_history` emits an optional system message first
(present exactly when the session prompt or, failing that, the config
prompt resolves, with the session prompt taking priority via `Option.or`),
then every history message transcoded 1:1 (role, content variant, and
tool-call fields preserved, in original order), then the new user message
last; the builder reads the session snapshot and mutates nothing. -/
theorem C5_build_history (cfg : AgentConfig) (session : AgentSession) (user : String)
    (images : Option (List ImageData)) :
    ∃ sysPart : List ChatMessage,
      build_messages_with_history cfg session user images
        = sysPart ++ session.messages.map convert_to_chat_message
            ++ [newUserMessage user images]
      ∧ (session.system_prompt.or cfg.system_prompt = none → sysPart = [])
      ∧ (∀ p, session.system_prompt.or cfg.system_prompt = some p →
          sysPart = [{ role := "system", content := some (WireMessageContent.Text p),
                       tool_calls := none, tool_call_id := none }])
      ∧ List.Forall₂ msgTranscoded session.messages
          (session.messages.map convert_to_chat_message) := by
  have htrans : List.Forall₂ msgTranscoded session.messages
      (session.messages.map convert_to_chat_message) := by
    rw [List.forall₂_map_right_iff]
    exact List.forall₂_same.mpr fun m _ => convert_transcodes m
  cases hp : session.system_prompt.or cfg.system_prompt with
  | none =>
    refine ⟨[], ?_, fun _ => rfl, ?_, htrans⟩
    · simp [build_messages_with_history, hp]
    · intro p hp2
      exact Option.noConfusion hp2
  | some prompt =>
    refine ⟨[{ role := "system", content := some (WireMessageContent.Text prompt),
               tool_calls := none, tool_call_id := none }], ?_, ?_, ?_, htrans⟩
    · simp [build_messages_with_history, hp]
    · intro h0
      exact Option.noConfusion h0
    · intro p hp2
      rw [Option.some.inj hp2]

/-- C5 (witness): a session whose own prompt resolves. -/
theorem C5_witness :
    ∃ sysPart,
      build_messages_with_history sampleCfg sampleSessionP "q" none
        = sysPart ++ sampleSessionP.messages.map convert_to_chat_message
            ++ [newUserMessage "q" none]
      ∧ sysPart = [{ role := "system", content := some (WireMessageContent.Text "be brief"),
                     tool_calls := none, tool_call_id := none }] := by
  obtain ⟨sysPart, h1, h2, h3, h4⟩ := C5_build_history sampleCfg sampleSessionP "q" none
  exact ⟨sysPart, h1, h3 "be brief" rfl⟩

/-- C6: the new user message carries plain text content when no image list
is supplied, and with an `N`-image list it carries `Parts` content with
exactly `N + 1` parts — a leading text part holding the user text, then one
image-url part per input image in order, each with url
`data:<media_type>;base64,<data>`; both builders place this message last. -/
theorem C6_user_message (cfg : AgentConfig) (session : AgentSession) (user : String)
    (images : Option (List ImageData)) :
    (images = none →
        newUserMessage user images
          = { role := "user", content := some (WireMessageContent.Text user),
              tool_calls := none, tool_call_id := none })
    ∧ (∀ imgs, images = some imgs →
        ∃ parts,
          newUserMessage user images
            = { role := "user", content := some (WireMessageContent.Parts parts),
                tool_calls := none, tool_call_id := none }
          ∧ parts.length = imgs.length + 1
          ∧ parts.head? = some (WireContentPart.Text user)
          ∧ ∀ i (h : i < imgs.length),
              List.get? parts (i + 1) = some (WireContentPart.ImageUrl
                { url := "data:" ++ (imgs.get ⟨i, h⟩).media_type ++ ";base64,"
                    ++ (imgs.get ⟨i, h⟩).data,
                  detail := none }))
    ∧ (build_messages_with_history cfg session user images).getLast?
        = some (newUserMessage user images)
    ∧ (build_single_messages cfg user images).getLast?
        = some (newUserMessage user images) := by
  refine ⟨?_, ?_, ?_, ?_⟩
  · intro h0
    rw [h0]
    rfl
  · intro imgs h0
    refine ⟨WireContentPart.Text user ::
      imgs.map (fun img => WireContentPart.ImageUrl { url := dataUrl img, detail := none }),
      ?_, ?_, rfl, ?_⟩
    · rw [h0]
      rfl
    · simp
    · intro i h
      simp only [List.get?, List.get?_map]
      rw [List.get?_eq_get h]
      rfl
  · simp [build_messages_with_history, List.getLast?_concat]
  · simp [build_single_messages, List.getLast?_concat]

/-- C6 (witness): two concrete images yield three parts with data urls. -/
theorem C6_witness :
    ∃ parts,
      newUserMessage "hi" (some [{ data := "d1", media_type := "image/png" },
          { data := "d2", media_type := "image/jpeg" }])
        = { role := "user", content := some (WireMessageContent.Parts parts),
            tool_calls := none, tool_call_id := none }
      ∧ parts.length = 3
      ∧ parts.head? = some (WireContentPart.Text "hi") := by
  obtain ⟨parts, h1, h2, h3, h4⟩ := (C6_user_message sampleCfg sampleSession "hi"
      (some [{ data := "d1", media_type := "image/png" },
             { data := "d2", media_type := "image/jpeg" }])).2.1
    [{ data := "d1", media_type := "image/png" },
     { data := "d2", media_type := "image/jpeg" }] rfl
  exact ⟨parts, h1, h2, h3⟩

/-- C7: a non-sentinel `data:` payload never terminates the stream and
never yields an `Error` event (only possibly one `TextDelta`); when it does
not parse as JSON, or parses without a `choices[0].delta.content` string,
or that string is empty, it is skipped silently — no event at all and an
unchanged accumulator. -/
theorem C7_malformed_skipped (data : List Char) (full : String)
    (hns : ¬ rustTrim data = "[DONE]".data) :
    (processLine ("data: ".data ++ data) full).2.2 = false
    ∧ (∀ e ∈ (processLine ("data: ".data ++ data) full).1,
        ∃ t, e = StreamEvent.TextDelta t)
    ∧ (deltaOf data = none ∨ deltaOf data = some "" →
        processLine ("data: ".data ++ data) full = ([], full, false)) := by
  have hdp : dropPre "data: ".data ("data: ".data ++ data) = some data := dropPre_append _ _
  rcases hp : Json.parseChars data with _ | j
  · have hval : processLine ("data: ".data ++ data) full = ([], full, false) := by
      simp only [processLine, hdp, if_neg hns, hp]
    rw [hval]
    exact ⟨rfl, by simp, fun _ => rfl⟩
  · rcases he : extractDelta j with _ | delta
    · have hval : processLine ("data: ".data ++ data) full = ([], full, false) := by
        simp only [processLine, hdp, if_neg hns, hp, he]
      rw [hval]
      exact ⟨rfl, by simp, fun _ => rfl⟩
    · by_cases hemp : delta.isEmpty = true
      · have hval : processLine ("data: ".data ++ data) full = ([], full, false) := by
          simp only [processLine, hdp, if_neg hns, hp, he, hemp, if_true]
        rw [hval]
        exact ⟨rfl, by simp, fun _ => rfl⟩
      · have hval : processLine ("data: ".data ++ data) full
            = ([StreamEvent.TextDelta delta], full ++ delta, false) := by
          simp only [processLine, hdp, if_neg hns, hp, he]
          rw [if_neg hemp]
        rw [hval]
        refine ⟨rfl, ?_, ?_⟩
        · intro e he2
          simp only [List.mem_singleton] at he2
          exact ⟨delta, he2⟩
        · intro hdo
          exfalso
          have hd : deltaOf data = some delta := by simp [deltaOf, hp, he]
          rcases hdo with h0 | h0 <;> rw [hd] at h0
          · cases h0
          · injection h0 with h0
            subst h0
            exact hemp rfl

/-- C7 (witness): an unparseable payload is skipped without any event. -/
theorem C7_witness :
    processLine ("data: ".data ++ "notjson".data) "acc" = ([], "acc", false) :=
  (C7_malformed_skipped "notjson".data "acc" (by decide)).2.2 (Or.inl rfl)
